import Mathlib

/-!
Verification development for the review-dash OAuth relay server (main.go).

The security-critical core of the server is embedded shallowly:

* Go strings are modelled as Lean `String` / `List Char`; where Go measures
  byte length (`len(s)`), the UTF-8 byte length is computed explicitly.
* `time.Time` is modelled as `Int` (seconds); `a.After(b)` becomes `a > b`,
  `now.Add(-w)` becomes `now - w`.
* The in-memory maps (`authCodes`, `rateLimiter.requests`) are modelled as
  association lists with map-update semantics (insert deletes the old key).
* Network I/O (GitHub token exchange, user-info fetch) is parameterised by
  its observable result (`Option String`).
-/

namespace ReviewDash

/-- Base domain constant from main.go: `baseDomain = "reviewGOOSE.dev"`. -/
def baseDomain : String := "reviewGOOSE.dev"

/-- Rate-limit constant from main.go: `rateLimitRequests = 10`. -/
def rateLimitRequests : Nat := 10

/-- Rate-limit window from main.go, in seconds: `rateLimitWindow = 1 * time.Minute`. -/
def rateLimitWindow : Int := 60

/-- Number of bytes of the UTF-8 encoding of a character (what Go's `len` counts
per rune of a string). -/
def charBytes (c : Char) : Nat :=
  if c.toNat ≤ 0x7F then 1
  else if c.toNat ≤ 0x7FF then 2
  else if c.toNat ≤ 0xFFFF then 3
  else 4

/-- UTF-8 byte length of a character list: Go's `len(s)` for a string. -/
def utf8Len (s : List Char) : Nat :=
  (s.map charBytes).sum

/-- Character test used in the loop of `isValidGitHubHandle` (main.go lines
158-167): ASCII lowercase, uppercase, or digit. -/
def isAsciiAlnumChar (c : Char) : Bool :=
  decide (('a' ≤ c ∧ c ≤ 'z') ∨ ('A' ≤ c ∧ c ≤ 'Z') ∨ ('0' ≤ c ∧ c ≤ '9'))

/-- The character loop of `isValidGitHubHandle` (main.go lines 158-176).
`prev` carries the previously accepted character, standing for Go's
`handle[i-1]` byte lookup (every character the loop moves past is ASCII, so
the byte at `i-1` is exactly the previous character). -/
def scanHandle : List Char → Option Char → Bool
  | [], _ => true
  | c :: rest, prev =>
    if isAsciiAlnumChar c then scanHandle rest (some c)
    else if c = '-' then
      if prev = some '-' then false
      else scanHandle rest (some c)
    else false

/-- Model of `isValidGitHubHandle` (main.go lines 147-179): empty or longer
than 39 bytes is rejected, a leading or trailing hyphen is rejected
(`strings.HasPrefix`/`HasSuffix` on `"-"`), then each character must be ASCII
alphanumeric or a non-consecutive hyphen. -/
def isValidGitHubHandle (handle : List Char) : Bool :=
  if handle = [] ∨ utf8Len handle > 39 then false
  else if handle.head? = some '-' ∨ handle.getLast? = some '-' then false
  else scanHandle handle none

/-- Go's `unicode.SimpleFold` orbit mapping restricted to comparisons against
ASCII strings: ASCII uppercase folds to lowercase, and the only two non-ASCII
characters whose simple-fold orbit contains an ASCII letter are LATIN SMALL
LETTER LONG S (U+017F, folds with `s`) and KELVIN SIGN (U+212A, folds with
`k`). -/
def foldChar (c : Char) : Char :=
  if 'A' ≤ c ∧ c ≤ 'Z' then Char.ofNat (c.toNat + 32)
  else if c = Char.ofNat 0x17F then 's'
  else if c = Char.ofNat 0x212A then 'k'
  else c

/-- Model of `strings.EqualFold` on character lists, exact whenever one
operand is ASCII (all call sites in main.go compare against ASCII literals). -/
def equalFoldL (a b : List Char) : Bool :=
  a.map foldChar == b.map foldChar

/-- Model of `strings.EqualFold` on strings. -/
def equalFold (a b : String) : Bool :=
  equalFoldL a.data b.data

/-- Go's `strings.Split(s, ".")` on a character list: never returns an empty
list, splits on every dot. -/
def splitOnChar (sep : Char) : List Char → List (List Char)
  | [] => [[]]
  | c :: rest =>
    if c = sep then [] :: splitOnChar sep rest
    else
      match splitOnChar sep rest with
      | [] => [[c]]
      | p :: ps => (c :: p) :: ps

/-- Go's `strings.HasSuffix(host, "."+baseDomain)` (main.go line 598): the
pattern is ASCII, so byte suffix and character suffix coincide. -/
def hostSuffixBase (host : String) : Bool :=
  ("." ++ baseDomain).data.isSuffixOf host.data

/-- Reserved subdomain allowlist (main.go line 609). -/
def reservedSubdomains : List String :=
  ["www", "dash", "api", "login", "auth-callback", "my"]

/-- First label of a host, Go's `strings.Split(host, ".")[0]` (main.go
lines 605-607); `splitOnChar` never returns `[]`, so the default is dead. -/
def subLabel (host : String) : List Char :=
  (splitOnChar '.' host.data).headD []

/-- The reserved-subdomain loop of `validateReturnToURL` (main.go lines
610-616): `strings.EqualFold` against each reserved name. -/
def subdomainReserved (subdomain : List Char) : Bool :=
  reservedSubdomains.any (fun res => equalFoldL subdomain res.data)

/-- Result of Go's `url.Parse` as far as `validateReturnToURL` consumes it:
`parsedURL.Scheme` and `parsedURL.Hostname()`. -/
structure ParsedURL where
  scheme : String
  hostname : String
deriving DecidableEq, Repr

/-- Model of `validateReturnToURL` (main.go lines 575-627). `parsed` is the
result of `url.Parse returnTo` (`none` for a parse error). Empty input or a
parse error returns empty; the scheme must be http or https; the host must be
the base domain or a dot-suffix of it; a host with at least three
dot-separated labels must have a reserved or valid-GitHub-handle first label;
on success the original string is returned unchanged. -/
def validateReturnToURL (returnTo : String) (parsed : Option ParsedURL) : String :=
  if returnTo = "" then ""
  else
    match parsed with
    | none => ""
    | some u =>
      if u.scheme = "http" ∨ u.scheme = "https" then
        if u.hostname ≠ baseDomain ∧ ¬ hostSuffixBase u.hostname then ""
        else if u.hostname ≠ baseDomain then
          if (splitOnChar '.' u.hostname.data).length ≥ 3 then
            if ¬ subdomainReserved (subLabel u.hostname)
                ∧ ¬ isValidGitHubHandle (subLabel u.hostname) then ""
            else returnTo
          else returnTo
        else returnTo
      else ""

/-- Host check of `handleOAuthLogin` (main.go line 650):
`strings.EqualFold(currentHost, baseDomain)`. -/
def loginOnBaseDomain (currentHost : String) : Bool :=
  equalFold currentHost baseDomain

/-- The `authCodeData` struct of main.go (lines 88-94); time is `Int`
seconds. -/
structure AuthCodeData where
  expiry : Int
  token : String
  username : String
  returnTo : String
  used : Bool
deriving DecidableEq, Repr

/-- The `authCodes` map (main.go line 77), as an association list with unique
keys. -/
abbrev AuthCodeStore := List (String × AuthCodeData)

/-- Deletion from the auth-code map: Go's `delete(authCodes, code)`. -/
def storeDelete (s : AuthCodeStore) (code : String) : AuthCodeStore :=
  s.filter (fun p => p.1 ≠ code)

/-- Map update `authCodes[code] = data`: the key becomes bound to exactly
this entry. -/
def storeInsert (s : AuthCodeStore) (code : String) (data : AuthCodeData) : AuthCodeStore :=
  (code, data) :: storeDelete s code

/-- The auth-code issuance block of `handleOAuthCallback` (main.go lines
879-889): insert an entry with `expiry = now + 10s` and `used = false`. -/
def issueAuthCode (s : AuthCodeStore) (code token username returnTo : String)
    (now : Int) : AuthCodeStore :=
  storeInsert s code
    { expiry := now + 10, token := token, username := username,
      returnTo := returnTo, used := false }

/-- Outcome of the consume step of `handleExchangeAuthCode`: either the
stored token and username (HTTP 200 JSON), or an `http.Error` body sent with
status 401. -/
inductive ConsumeResult where
  | ok (token username : String)
  | unauthorized (body : String)
deriving DecidableEq, Repr

/-- HTTP status of a consume outcome: 200 for the JSON success response,
401 for every `http.Error` failure branch of `handleExchangeAuthCode`. -/
def resultStatus : ConsumeResult → Nat
  | .ok _ _ => 200
  | .unauthorized _ => 401

/-- The critical section of `handleExchangeAuthCode` (main.go lines 936-964):
under one lock, look the code up, check the used flag, check expiry with
`time.Now().After(data.expiry)`, and on success delete the entry before
unlocking. Failure branches leave the store untouched and answer 401 with the
branch's distinct `http.Error` body. -/
def consumeAuthCode (s : AuthCodeStore) (code : String) (now : Int) :
    ConsumeResult × AuthCodeStore :=
  match s.lookup code with
  | none => (.unauthorized "Invalid or expired auth code", s)
  | some data =>
    if data.used then (.unauthorized "Auth code already used", s)
    else if now > data.expiry then (.unauthorized "Auth code expired", s)
    else (.ok data.token data.username, storeDelete s code)

/-- The cleanup goroutine body (main.go lines 414-423): delete every entry
whose expiry has passed (`now.After(data.expiry)`). -/
def sweepAuthCodes (s : AuthCodeStore) (now : Int) : AuthCodeStore :=
  s.filter (fun p => ¬ now > p.2.expiry)

/-- One serialised operation on the auth-code store; the mutex makes every
interleaving of `handleOAuthCallback` issuance, `handleExchangeAuthCode`
consumption and the sweep goroutine a sequence of these. -/
inductive StoreOp where
  | issue (code token username returnTo : String) (now : Int)
  | consume (code : String) (now : Int)
  | sweep (now : Int)
deriving DecidableEq, Repr

/-- Effect of one store operation. -/
def applyOp (s : AuthCodeStore) : StoreOp → AuthCodeStore
  | .issue code token username returnTo now => issueAuthCode s code token username returnTo now
  | .consume code now => (consumeAuthCode s code now).2
  | .sweep now => sweepAuthCodes s now

/-- Run a sequence of store operations. -/
def runOps (s : AuthCodeStore) (ops : List StoreOp) : AuthCodeStore :=
  ops.foldl applyOp s

/-- Whether an operation issues the given code (fresh random IDs never
collide with an already-consumed code). -/
def issuesCode : StoreOp → String → Bool
  | .issue code _ _ _ _, c => code == c
  | _, _ => false

/-- A code has no entry in the store. -/
def codeAbsent (s : AuthCodeStore) (code : String) : Prop :=
  ∀ p ∈ s, p.1 ≠ code

/-- The pruning loop of `limitHandler` (main.go lines 114-120): keep the
timestamps with `t.After(cutoff)` where `cutoff = now - window`. -/
def pruneWindow (window now : Int) (times : List Int) : List Int :=
  times.filter (fun t => t > now - window)

/-- One pass of `limitHandler` (main.go lines 104-141) over a single IP's
timestamp list. After pruning, a count at or above the limit rejects;
otherwise `now` is appended and the request is allowed. On the reject path Go
never reassigns `rl.requests[ip]`, but the pruning loop has already compacted
the shared backing array in place, so the entry observably holds the pruned
prefix followed by the untouched tail of the old slice. -/
def limitStep (limit : Nat) (window : Int) (now : Int) (times : List Int) :
    Bool × List Int :=
  let valid := pruneWindow window now times
  if valid.length ≥ limit then (false, valid ++ times.drop valid.length)
  else (true, valid ++ [now])

/-- OAuth configuration consumed by `handleOAuthCallback`: the `clientID`
and `clientSecret` flag values. -/
structure CallbackConfig where
  clientID : String
  clientSecret : String
deriving DecidableEq, Repr

/-- The parts of the callback request that `handleOAuthCallback` reads:
query parameters (empty string when absent), cookies (`none` when missing),
and the TLS signal. `parsedReturnTo` is the result of `url.Parse` applied to
the return-to cookie value inside `validateReturnToURL`. -/
structure CallbackRequest where
  errorParam : String
  installationID : String
  setupAction : String
  state : String
  oauthStateCookie : Option String
  code : String
  returnToCookie : Option String
  parsedReturnTo : Option ParsedURL
  isSecure : Bool
deriving DecidableEq, Repr

/-- Model of `subtle.ConstantTimeCompare(cookie, state) == 1` (main.go line
805): 1 exactly when the two byte strings are equal (0 on length mismatch). -/
def constantTimeEq (a b : String) : Bool :=
  a == b

/-- Terminal response of `handleOAuthCallback`. -/
inductive CallbackOutcome where
  | unavailable
  | errorPage
  | installationPage
  | badRequest (msg : String)
  | exchangeFailed
  | userInfoFailed
  | invalidUsername
  | redirect (dest : String) (fragmentAuthCode : String)
deriving DecidableEq, Repr

/-- HTTP status written for each callback outcome. -/
def callbackStatus : CallbackOutcome → Nat
  | .unavailable => 503
  | .errorPage => 200
  | .installationPage => 200
  | .badRequest _ => 400
  | .exchangeFailed => 500
  | .userInfoFailed => 500
  | .invalidUsername => 400
  | .redirect _ _ => 302

/-- Side effects of one `handleOAuthCallback` invocation: whether
`trackFailedAttempt` ran, whether `clearStateCookie` ran, whether
`exchangeCodeForToken` was invoked, and whether a one-time auth code was
inserted into the store. -/
structure CallbackEffects where
  trackedFailedAttempt : Bool
  clearedStateCookie : Bool
  calledTokenExchange : Bool
  issuedAuthCode : Bool
deriving DecidableEq, Repr

/-- Scheme string chosen from the TLS signal (main.go lines 867-871). -/
def schemeStr (isSecure : Bool) : String :=
  if isSecure then "https" else "http"

/-- Model of `handleOAuthCallback` (main.go lines 703-896). `providerToken`
is the observable result of `exchangeCodeForToken` (`none` = error after
retries), `providerUser` the login returned by `userInfo`, `newAuthCode` the
fresh random ID of `generateID(32)`. Returns the terminal outcome, the side
effects, and the resulting auth-code store. -/
def handleOAuthCallbackModel (cfg : CallbackConfig) (r : CallbackRequest)
    (s : AuthCodeStore) (providerToken : Option String)
    (providerUser : Option String) (newAuthCode : String) (now : Int) :
    CallbackOutcome × CallbackEffects × AuthCodeStore :=
  if cfg.clientID = "" ∨ cfg.clientSecret = "" then
    (.unavailable, ⟨false, false, false, false⟩, s)
  else if r.errorParam ≠ "" then
    (.errorPage, ⟨false, false, false, false⟩, s)
  else if r.installationID ≠ "" ∧ r.setupAction ≠ "" then
    (.installationPage, ⟨false, false, false, false⟩, s)
  else if r.state = "" then
    (.badRequest "Missing state parameter", ⟨true, true, false, false⟩, s)
  else
    match r.oauthStateCookie with
    | none => (.badRequest "Invalid state", ⟨true, true, false, false⟩, s)
    | some cookieValue =>
      if ¬ constantTimeEq cookieValue r.state then
        (.badRequest "Invalid state", ⟨true, true, false, false⟩, s)
      else if r.code = "" ∨ utf8Len r.code.data > 512 then
        (.badRequest "Invalid authorization code", ⟨true, true, false, false⟩, s)
      else
        match providerToken with
        | none => (.exchangeFailed, ⟨true, false, true, false⟩, s)
        | some token =>
          match providerUser with
          | none => (.userInfoFailed, ⟨false, false, true, false⟩, s)
          | some login =>
            if ¬ isValidGitHubHandle login.data then
              (.invalidUsername, ⟨false, false, true, false⟩, s)
            else
              let returnTo := match r.returnToCookie with
                | some v => v
                | none => ""
              let validated := validateReturnToURL returnTo r.parsedReturnTo
              let redirectURL :=
                if validated = "" then schemeStr r.isSecure ++ "://my." ++ baseDomain
                else validated
              (.redirect redirectURL newAuthCode,
               ⟨false, true, true, true⟩,
               issueAuthCode s newAuthCode token login redirectURL now)

/-- The character condition of the handle specification: ASCII letter, ASCII
digit, or hyphen. -/
def handleChar (c : Char) : Prop :=
  ('a' ≤ c ∧ c ≤ 'z') ∨ ('A' ≤ c ∧ c ≤ 'Z') ∨ ('0' ≤ c ∧ c ≤ '9') ∨ c = '-'

/-- No two adjacent characters are both hyphens. -/
def noConsecutiveHyphens : List Char → Bool
  | [] => true
  | [_] => true
  | a :: b :: rest => !(a == '-' && b == '-') && noConsecutiveHyphens (b :: rest)

/-! Theorems -/

theorem charToNat_le {a b : Char} (h : a ≤ b) : a.toNat ≤ b.toNat := by
  have h2 : a.val ≤ b.val := Char.le_def.mp h
  have h3 : a.val.toNat ≤ b.val.toNat := by exact_mod_cast h2
  simpa [Char.toNat] using h3

/-- C5: a parsed host that is neither exactly the base domain nor a string
ending in "." plus the base domain makes `validateReturnToURL` return the
empty string, and so does a scheme other than http or https. -/
theorem validateReturnTo_rejects_foreign (rt : String) (u : ParsedURL)
    (h : (u.hostname ≠ baseDomain ∧ hostSuffixBase u.hostname = false)
        ∨ (u.scheme ≠ "http" ∧ u.scheme ≠ "https")) :
    validateReturnToURL rt (some u) = "" := by
  unfold validateReturnToURL
  by_cases hrt : rt = ""
  · rw [if_pos hrt]
  · rw [if_neg hrt]
    dsimp only
    rcases h with ⟨hne, hsuf⟩ | ⟨h1, h2⟩
    · by_cases hs : u.scheme = "http" ∨ u.scheme = "https"
      · rw [if_pos hs, if_pos ⟨hne, by simp [hsuf]⟩]
      · rw [if_neg hs]
    · rw [if_neg (by tauto)]

theorem validateReturnTo_rejects_foreign_witness :
    validateReturnToURL "https://evil.com/" (some ⟨"https", "evil.com"⟩) = ""
    ∧ validateReturnToURL "javascript://reviewGOOSE.dev/" (some ⟨"javascript", "reviewGOOSE.dev"⟩) = "" :=
  ⟨validateReturnTo_rejects_foreign "https://evil.com/" ⟨"https", "evil.com"⟩
      (Or.inl (by constructor <;> decide)),
   validateReturnTo_rejects_foreign "javascript://reviewGOOSE.dev/" ⟨"javascript", "reviewGOOSE.dev"⟩
      (Or.inr (by constructor <;> decide))⟩

/-- C6: on a subdomain host with at least three dot-separated labels, a
first label that is neither reserved nor a valid GitHub handle forces an
empty result, while a reserved or valid-handle label passes the URL through
unchanged. -/
theorem validateReturnTo_subdomain_label (rt : String) (u : ParsedURL)
    (hscheme : u.scheme = "http" ∨ u.scheme = "https")
    (hsuf : hostSuffixBase u.hostname = true)
    (hne : u.hostname ≠ baseDomain)
    (hparts : (splitOnChar '.' u.hostname.data).length ≥ 3) :
    (subdomainReserved (subLabel u.hostname) = false →
      isValidGitHubHandle (subLabel u.hostname) = false →
      validateReturnToURL rt (some u) = "")
    ∧ (rt ≠ "" →
      (subdomainReserved (subLabel u.hostname) = true ∨ isValidGitHubHandle (subLabel u.hostname) = true) →
      validateReturnToURL rt (some u) = rt) := by
  constructor
  · intro hres hhandle
    unfold validateReturnToURL
    by_cases hrt : rt = ""
    · rw [if_pos hrt]
    · rw [if_neg hrt]
      dsimp only
      rw [if_pos hscheme, if_neg (by simp [hne, hsuf]), if_pos hne,
        if_pos hparts, if_pos (by simp [hres, hhandle])]
  · intro hrt hok
    unfold validateReturnToURL
    rw [if_neg hrt]
    dsimp only
    rw [if_pos hscheme, if_neg (by simp [hne, hsuf]), if_pos hne,
      if_pos hparts, if_neg (by rcases hok with hok | hok <;> simp [hok])]

theorem validateReturnTo_subdomain_label_witness :
    validateReturnToURL "https://a_b.reviewGOOSE.dev/" (some ⟨"https", "a_b.reviewGOOSE.dev"⟩) = ""
    ∧ validateReturnToURL "https://alice.reviewGOOSE.dev/" (some ⟨"https", "alice.reviewGOOSE.dev"⟩)
        = "https://alice.reviewGOOSE.dev/"
    ∧ validateReturnToURL "https://www.reviewGOOSE.dev/" (some ⟨"https", "www.reviewGOOSE.dev"⟩)
        = "https://www.reviewGOOSE.dev/" :=
  ⟨(validateReturnTo_subdomain_label "https://a_b.reviewGOOSE.dev/" ⟨"https", "a_b.reviewGOOSE.dev"⟩
      (Or.inr rfl) (by decide) (by decide) (by decide)).1 (by decide) (by decide),
   (validateReturnTo_subdomain_label "https://alice.reviewGOOSE.dev/" ⟨"https", "alice.reviewGOOSE.dev"⟩
      (Or.inr rfl) (by decide) (by decide) (by decide)).2 (by decide) (Or.inr (by decide)),
   (validateReturnTo_subdomain_label "https://www.reviewGOOSE.dev/" ⟨"https", "www.reviewGOOSE.dev"⟩
      (Or.inr rfl) (by decide) (by decide) (by decide)).2 (by decide) (Or.inl (by decide))⟩

/-- C10: the host comparison of `validateReturnToURL` is case-sensitive — the
base domain in different letter case is rejected with an empty result — even
though `strings.EqualFold` (used by the reserved-subdomain check of the same
function and by the `handleOAuthLogin` host check) accepts exactly that
case variant, and the reserved check accepts a case-varied label. -/
theorem validateReturnTo_case_sensitive_host :
    validateReturnToURL "https://REVIEWGOOSE.DEV/" (some ⟨"https", "REVIEWGOOSE.DEV"⟩) = ""
    ∧ equalFold "REVIEWGOOSE.DEV" baseDomain = true
    ∧ loginOnBaseDomain "REVIEWGOOSE.DEV" = true
    ∧ validateReturnToURL "https://WWW.reviewGOOSE.dev/" (some ⟨"https", "WWW.reviewGOOSE.dev"⟩)
        = "https://WWW.reviewGOOSE.dev/"
    ∧ subdomainReserved (String.data "WWW") = true := by
  refine ⟨by decide, by decide, by decide, by decide, by decide⟩

/-- C8: with the configured limit of 10 per minute, one pass of the limiter
allows the request exactly when fewer than 10 recorded timestamps lie within
the last minute; in particular ten in-window entries reject the next request,
and once all entries are a window old the request is allowed again. -/
theorem rateLimiter_allow_iff (now : Int) (times : List Int) :
    (limitStep rateLimitRequests rateLimitWindow now times).1 = true
      ↔ (times.filter (fun t => now - rateLimitWindow < t)).length < rateLimitRequests := by
  unfold limitStep pruneWindow
  by_cases h : (times.filter (fun t => now - rateLimitWindow < t)).length ≥ rateLimitRequests
  · rw [if_pos h]
    simp
    omega
  · rw [if_neg h]
    simp
    omega

/-- Helper: one limiter pass never leaves more than `limit` timestamps when
starting from at most `limit` (every reachable per-IP list satisfies this,
starting from the empty list). -/
theorem limitStep_length_invariant (limit : Nat) (window now : Int) (times : List Int)
    (hinv : times.length ≤ limit) :
    ((limitStep limit window now times).2).length ≤ limit := by
  unfold limitStep
  have hsub : (pruneWindow window now times).Sublist times := List.filter_sublist times
  have hle := hsub.length_le
  by_cases h : (pruneWindow window now times).length ≥ limit
  · rw [if_pos h]
    simp only [List.length_append, List.length_drop]
    omega
  · rw [if_neg h]
    simp only [List.length_append, List.length_singleton]
    omega

/-- C9: on rejection the limiter records nothing: for any reachable per-IP
list (at most 10 entries), a rejected pass leaves the list exactly as it
was — the current timestamp is not appended, so rejected bursts do not
postpone when the IP is allowed again. -/
theorem rateLimiter_reject_frame (now : Int) (times : List Int)
    (hinv : times.length ≤ rateLimitRequests)
    (hrej : (limitStep rateLimitRequests rateLimitWindow now times).1 = false) :
    (limitStep rateLimitRequests rateLimitWindow now times).2 = times := by
  unfold limitStep at hrej ⊢
  have hsub : (pruneWindow rateLimitWindow now times).Sublist times := List.filter_sublist times
  have hle := hsub.length_le
  by_cases h : (pruneWindow rateLimitWindow now times).length ≥ rateLimitRequests
  · rw [if_pos h] at hrej ⊢
    have hlen : (pruneWindow rateLimitWindow now times).length = times.length := by omega
    have heq : pruneWindow rateLimitWindow now times = times := hsub.eq_of_length hlen
    rw [heq]
    simp
  · rw [if_neg h] at hrej
    simp at hrej

theorem rateLimiter_reject_frame_witness :
    (limitStep rateLimitRequests rateLimitWindow 30 [0, 1, 2, 3, 4, 5, 6, 7, 8, 9]).2
      = [0, 1, 2, 3, 4, 5, 6, 7, 8, 9] :=
  rateLimiter_reject_frame 30 [0, 1, 2, 3, 4, 5, 6, 7, 8, 9] (by decide) (by decide)

/-- C3 counterexample: two consume calls that fail for different reasons
(code not found versus code already used) both answer 401 but with different
bodies, so the full responses are not identical. -/
theorem exchange_failure_responses_differ :
    resultStatus (consumeAuthCode [] "code1" 0).1 = 401
    ∧ resultStatus (consumeAuthCode [("code1", ⟨100, "tok", "alice", "rt", true⟩)] "code1" 0).1 = 401
    ∧ (consumeAuthCode [] "code1" 0).1 = .unauthorized "Invalid or expired auth code"
    ∧ (consumeAuthCode [("code1", ⟨100, "tok", "alice", "rt", true⟩)] "code1" 0).1
        = .unauthorized "Auth code already used"
    ∧ (consumeAuthCode [] "code1" 0).1
        ≠ (consumeAuthCode [("code1", ⟨100, "tok", "alice", "rt", true⟩)] "code1" 0).1 := by
  refine ⟨by decide, by decide, by decide, by decide, by decide⟩

/-- C3 amended: every failing consume outcome carries HTTP status 401, but
the body is one of three distinct reason-revealing messages rather than a
single generic one. -/
theorem exchange_failure_status_uniform (s : AuthCodeStore) (code : String) (now : Int)
    (b : String) (h : (consumeAuthCode s code now).1 = .unauthorized b) :
    resultStatus (consumeAuthCode s code now).1 = 401
    ∧ (b = "Invalid or expired auth code" ∨ b = "Auth code already used"
        ∨ b = "Auth code expired") := by
  refine ⟨by rw [h]; rfl, ?_⟩
  unfold consumeAuthCode at h
  rcases hl : List.lookup code s with _ | data
  · rw [hl] at h
    simp at h
    exact Or.inl h.symm
  · rw [hl] at h
    dsimp only at h
    by_cases hu : data.used
    · rw [if_pos hu] at h
      simp at h
      exact Or.inr (Or.inl h.symm)
    · rw [if_neg hu] at h
      by_cases he : now > data.expiry
      · rw [if_pos he] at h
        simp at h
        exact Or.inr (Or.inr h.symm)
      · rw [if_neg he] at h
        simp at h

theorem exchange_failure_status_uniform_witness :
    resultStatus (consumeAuthCode [] "c" 0).1 = 401
    ∧ ("Invalid or expired auth code" = "Invalid or expired auth code"
        ∨ "Invalid or expired auth code" = "Auth code already used"
        ∨ "Invalid or expired auth code" = "Auth code expired") :=
  exchange_failure_status_uniform [] "c" 0 "Invalid or expired auth code" (by decide)

theorem handleChar_of_alnum {c : Char} (h : isAsciiAlnumChar c = true) : handleChar c := by
  unfold isAsciiAlnumChar at h
  have h2 := of_decide_eq_true h
  unfold handleChar
  tauto

theorem alnum_of_handleChar {c : Char} (h : handleChar c) (hne : c ≠ '-') :
    isAsciiAlnumChar c = true := by
  unfold handleChar at h
  unfold isAsciiAlnumChar
  exact decide_eq_true (by tauto)

theorem alnum_ne_hyphen {c : Char} (h : isAsciiAlnumChar c = true) : c ≠ '-' := by
  intro he
  subst he
  exact absurd h (by decide)

theorem scanHandle_chars (s : List Char) : ∀ (prev : Option Char),
    scanHandle s prev = true → ∀ c ∈ s, handleChar c := by
  induction s with
  | nil =>
    intro prev _ c hc
    simp at hc
  | cons a rest ih =>
    intro prev h c hc
    simp only [scanHandle] at h
    by_cases ha : isAsciiAlnumChar a = true
    · rw [if_pos ha] at h
      rcases List.mem_cons.mp hc with rfl | hc2
      · exact handleChar_of_alnum ha
      · exact ih (some a) h c hc2
    · rw [if_neg ha] at h
      by_cases hd : a = '-'
      · rw [if_pos hd] at h
        by_cases hp : prev = some '-'
        · rw [if_pos hp] at h
          simp at h
        · rw [if_neg hp] at h
          rcases List.mem_cons.mp hc with rfl | hc2
          · exact Or.inr (Or.inr (Or.inr hd))
          · exact ih (some a) h c hc2
      · rw [if_neg hd] at h
        simp at h

theorem scanHandle_nch (s : List Char) : ∀ (prev : Option Char),
    scanHandle s prev = true →
    noConsecutiveHyphens s = true ∧ (prev = some '-' → s.head? ≠ some '-') := by
  induction s with
  | nil =>
    intro prev _
    exact ⟨rfl, by simp⟩
  | cons a rest ih =>
    intro prev h
    simp only [scanHandle] at h
    by_cases ha : isAsciiAlnumChar a = true
    · rw [if_pos ha] at h
      obtain ⟨hnchr, _⟩ := ih (some a) h
      have hane : a ≠ '-' := alnum_ne_hyphen ha
      constructor
      · cases rest with
        | nil => rfl
        | cons b t =>
          simp only [noConsecutiveHyphens]
          simp [hane, hnchr]
      · intro _
        simp [hane]
    · rw [if_neg ha] at h
      by_cases hd : a = '-'
      · rw [if_pos hd] at h
        by_cases hp : prev = some '-'
        · rw [if_pos hp] at h
          simp at h
        · rw [if_neg hp] at h
          obtain ⟨hnchr, hhd⟩ := ih (some a) h
          have hbd : rest.head? ≠ some '-' := hhd (by rw [hd])
          constructor
          · cases rest with
            | nil => rfl
            | cons b t =>
              simp only [noConsecutiveHyphens]
              have hbne : b ≠ '-' := by
                intro hb
                exact hbd (by simp [hb])
              simp [hbne, hnchr]
          · intro hpc
            exact absurd hpc hp
      · rw [if_neg hd] at h
        simp at h

theorem scanHandle_complete (s : List Char) : ∀ (prev : Option Char),
    (∀ c ∈ s, handleChar c) → noConsecutiveHyphens s = true →
    (prev = some '-' → s.head? ≠ some '-') → scanHandle s prev = true := by
  induction s with
  | nil =>
    intro prev _ _ _
    rfl
  | cons a rest ih =>
    intro prev hchars hnchr hprev
    simp only [scanHandle]
    have hrestchars : ∀ c ∈ rest, handleChar c :=
      fun c hc => hchars c (List.mem_cons_of_mem a hc)
    have hrestnchr : noConsecutiveHyphens rest = true := by
      cases rest with
      | nil => rfl
      | cons b t =>
        simp only [noConsecutiveHyphens, Bool.and_eq_true] at hnchr
        exact hnchr.2
    by_cases ha : isAsciiAlnumChar a = true
    · rw [if_pos ha]
      apply ih (some a) hrestchars hrestnchr
      intro hpa
      exact absurd (alnum_ne_hyphen ha) (by simp_all)
    · have hd : a = '-' := by
        by_cases hd2 : a = '-'
        · exact hd2
        · exact absurd (alnum_of_handleChar (hchars a (List.mem_cons_self a rest)) hd2) ha
      rw [if_neg ha, if_pos hd]
      have hpne : ¬ prev = some '-' := by
        intro hp
        exact (hprev hp) (by simp [hd])
      rw [if_neg hpne]
      apply ih (some a) hrestchars hrestnchr
      intro _
      cases rest with
      | nil => simp
      | cons b t =>
        simp only [noConsecutiveHyphens, Bool.and_eq_true] at hnchr
        have h1 := hnchr.1
        intro hb
        have hbe : b = '-' := by simpa using hb
        rw [hd, hbe] at h1
        simp at h1

theorem charBytes_one (c : Char) (h : handleChar c) : charBytes c = 1 := by
  have hle : c.toNat ≤ 0x7F := by
    rcases h with ⟨_, h2⟩ | ⟨_, h2⟩ | ⟨_, h2⟩ | h2
    · have h3 := charToNat_le h2
      have hz : Char.toNat 'z' = 122 := by decide
      omega
    · have h3 := charToNat_le h2
      have hz : Char.toNat 'Z' = 90 := by decide
      omega
    · have h3 := charToNat_le h2
      have hz : Char.toNat '9' = 57 := by decide
      omega
    · subst h2
      decide
  unfold charBytes
  rw [if_pos hle]

theorem utf8Len_eq_length (s : List Char) (h : ∀ c ∈ s, handleChar c) :
    utf8Len s = s.length := by
  induction s with
  | nil => rfl
  | cons a t ih =>
    have ha := h a (List.mem_cons_self a t)
    have ht := ih (fun c hc => h c (List.mem_cons_of_mem a hc))
    simp only [utf8Len, List.map_cons, List.sum_cons, List.length_cons] at *
    rw [charBytes_one a ha]
    omega

/-- C7: `isValidGitHubHandle` accepts a string exactly when it is 1-39
characters long, every character is an ASCII letter, an ASCII digit or a
hyphen, it neither starts nor ends with a hyphen, and no two consecutive
characters are hyphens. -/
theorem isValidGitHubHandle_spec (s : List Char) :
    isValidGitHubHandle s = true ↔
      (1 ≤ s.length ∧ s.length ≤ 39
        ∧ (∀ c ∈ s, ('a' ≤ c ∧ c ≤ 'z') ∨ ('A' ≤ c ∧ c ≤ 'Z') ∨ ('0' ≤ c ∧ c ≤ '9') ∨ c = '-')
        ∧ s.head? ≠ some '-' ∧ s.getLast? ≠ some '-'
        ∧ noConsecutiveHyphens s = true) := by
  constructor
  · intro h
    unfold isValidGitHubHandle at h
    by_cases h1 : s = [] ∨ utf8Len s > 39
    · rw [if_pos h1] at h
      exact absurd h (by simp)
    · rw [if_neg h1] at h
      by_cases h2 : s.head? = some '-' ∨ s.getLast? = some '-'
      · rw [if_pos h2] at h
        exact absurd h (by simp)
      · rw [if_neg h2] at h
        push_neg at h1 h2
        have hchars := scanHandle_chars s none h
        have hnch := (scanHandle_nch s none h).1
        have hlen := utf8Len_eq_length s hchars
        refine ⟨?_, ?_, hchars, h2.1, h2.2, hnch⟩
        · have := List.length_pos.mpr h1.1
          omega
        · have := h1.2
          omega
  · rintro ⟨hl1, hl2, hchars, hh, hg, hnch⟩
    unfold isValidGitHubHandle
    have hne : s ≠ [] := by
      intro he
      subst he
      simp at hl1
    have hlen := utf8Len_eq_length s hchars
    rw [if_neg (by push_neg; exact ⟨hne, by omega⟩), if_neg (by push_neg; exact ⟨hh, hg⟩)]
    exact scanHandle_complete s none hchars hnch (by intro hp; simp at hp)

theorem codeAbsent_lookup {s : AuthCodeStore} {code : String} (h : codeAbsent s code) :
    List.lookup code s = none := by
  induction s with
  | nil => rfl
  | cons p t ih =>
    have hp : p.1 ≠ code := h p (List.mem_cons_self p t)
    have ht : codeAbsent t code := fun q hq => h q (List.mem_cons_of_mem p hq)
    cases p with
    | mk k v =>
      simp only [List.lookup]
      have : (code == k) = false := by
        simp only [ne_eq] at hp
        simp [beq_eq_false_iff_ne]
        exact fun he => hp he.symm
      rw [this]
      exact ih ht

theorem storeDelete_absent (s : AuthCodeStore) (code : String) :
    codeAbsent (storeDelete s code) code := by
  intro p hp
  unfold storeDelete at hp
  have := List.mem_filter.mp hp
  simpa using this.2

theorem codeAbsent_filter {s : AuthCodeStore} {code : String} (q : String × AuthCodeData → Bool)
    (h : codeAbsent s code) : codeAbsent (s.filter q) code := by
  intro p hp
  exact h p (List.mem_filter.mp hp).1

theorem consume_preserves_absent {s : AuthCodeStore} {code : String} (c2 : String) (now : Int)
    (h : codeAbsent s code) : codeAbsent (consumeAuthCode s c2 now).2 code := by
  unfold consumeAuthCode
  rcases hl : List.lookup c2 s with _ | data
  · exact h
  · dsimp only
    by_cases hu : data.used
    · rw [if_pos hu]
      exact h
    · rw [if_neg hu]
      by_cases he : now > data.expiry
      · rw [if_pos he]
        exact h
      · rw [if_neg he]
        exact codeAbsent_filter _ h

theorem applyOp_preserves_absent {s : AuthCodeStore} {code : String} {op : StoreOp}
    (hop : issuesCode op code = false) (h : codeAbsent s code) :
    codeAbsent (applyOp s op) code := by
  cases op with
  | issue c2 tok un rt now =>
    have hne : c2 ≠ code := by
      simpa [issuesCode] using hop
    intro p hp
    simp only [applyOp, issueAuthCode, storeInsert] at hp
    rcases List.mem_cons.mp hp with rfl | hp2
    · exact hne
    · exact codeAbsent_filter _ h p hp2
  | consume c2 now =>
    exact consume_preserves_absent c2 now h
  | sweep now =>
    exact codeAbsent_filter _ h

theorem runOps_preserves_absent {code : String} (ops : List StoreOp) :
    ∀ (s : AuthCodeStore), (∀ op ∈ ops, issuesCode op code = false) →
    codeAbsent s code → codeAbsent (runOps s ops) code := by
  induction ops with
  | nil =>
    intro s _ h
    exact h
  | cons op t ih =>
    intro s hops h
    simp only [runOps, List.foldl_cons]
    exact ih (applyOp s op)
      (fun o ho => hops o (List.mem_cons_of_mem op ho))
      (applyOp_preserves_absent (hops op (List.mem_cons_self op t)) h)

theorem consume_absent {s : AuthCodeStore} {code : String} (now : Int)
    (h : codeAbsent s code) :
    consumeAuthCode s code now = (.unauthorized "Invalid or expired auth code", s) := by
  unfold consumeAuthCode
  rw [codeAbsent_lookup h]

theorem consume_ok_deletes {s s2 : AuthCodeStore} {code : String} {now : Int}
    {tok un : String} (h : consumeAuthCode s code now = (.ok tok un, s2)) :
    s2 = storeDelete s code := by
  unfold consumeAuthCode at h
  rcases hl : List.lookup code s with _ | data
  · rw [hl] at h
    simp at h
  · rw [hl] at h
    dsimp only at h
    by_cases hu : data.used
    · rw [if_pos hu] at h
      simp at h
    · rw [if_neg hu] at h
      by_cases he : now > data.expiry
      · rw [if_pos he] at h
        simp at h
      · rw [if_neg he] at h
        exact (Prod.mk.injEq _ _ _ _ ▸ h).2.symm ▸ rfl

/-- C1: once a consume of an auth code has succeeded, any later sequence of
store operations that does not issue that same code leaves it absent, so
every subsequent consume of it answers 401 with the not-found body and never
returns the token. -/
theorem authCode_no_replay (s s2 : AuthCodeStore) (code tok un : String) (now : Int)
    (hsucc : consumeAuthCode s code now = (.ok tok un, s2))
    (ops : List StoreOp) (hops : ∀ op ∈ ops, issuesCode op code = false)
    (later : Int) :
    consumeAuthCode (runOps s2 ops) code later
      = (.unauthorized "Invalid or expired auth code", runOps s2 ops)
    ∧ resultStatus (consumeAuthCode (runOps s2 ops) code later).1 = 401 := by
  have habs2 : codeAbsent s2 code := by
    rw [consume_ok_deletes hsucc]
    exact storeDelete_absent s code
  have habs := runOps_preserves_absent ops s2 hops habs2
  refine ⟨consume_absent later habs, ?_⟩
  rw [consume_absent later habs]
  rfl

/-- Operations used by the C1 witness: an unrelated issuance, a sweep, and a
consume of the unrelated code. -/
def sampleOps : List StoreOp :=
  [.issue "d" "tok2" "bob" "https://my.reviewGOOSE.dev" 0, .sweep 5, .consume "d" 6]

theorem authCode_no_replay_witness :
    consumeAuthCode (runOps [] sampleOps) "c" 1
      = (.unauthorized "Invalid or expired auth code", runOps [] sampleOps)
    ∧ resultStatus (consumeAuthCode (runOps [] sampleOps) "c" 1).1 = 401 :=
  authCode_no_replay [("c", ⟨10, "tok", "alice", "https://my.reviewGOOSE.dev", false⟩)] []
    "c" "tok" "alice" 0 (by decide) sampleOps (by decide) 1

/-- C2: issuing a code at time `T` stores expiry `T + 10` seconds, and a
consume strictly after that expiry answers 401 without the token, whether or
not a sweep (at any time `Ts`) has run in between. -/
theorem authCode_expires (s : AuthCodeStore) (code tok un rt : String) (T Ts Tc : Int)
    (h : Tc > T + 10) :
    List.lookup code (issueAuthCode s code tok un rt T)
        = some ⟨T + 10, tok, un, rt, false⟩
    ∧ resultStatus (consumeAuthCode (issueAuthCode s code tok un rt T) code Tc).1 = 401
    ∧ resultStatus
        (consumeAuthCode (sweepAuthCodes (issueAuthCode s code tok un rt T) Ts) code Tc).1
        = 401 := by
  have hlook : List.lookup code (issueAuthCode s code tok un rt T)
      = some ⟨T + 10, tok, un, rt, false⟩ := by
    simp [issueAuthCode, storeInsert, List.lookup]
  refine ⟨hlook, ?_, ?_⟩
  · unfold consumeAuthCode
    rw [hlook]
    dsimp only
    rw [if_neg (by simp), if_pos (by simpa using h)]
    rfl
  · unfold sweepAuthCodes issueAuthCode storeInsert
    simp only [List.filter_cons]
    by_cases hk : Ts > T + 10
    · rw [if_neg (by simpa using hk)]
      have habs : codeAbsent (List.filter (fun p => decide (¬Ts > p.2.expiry))
          (storeDelete s code)) code :=
        codeAbsent_filter _ (storeDelete_absent s code)
      rw [consume_absent Tc habs]
      rfl
    · rw [if_pos (by simpa using hk)]
      unfold consumeAuthCode
      rw [show List.lookup code ((code, (⟨T + 10, tok, un, rt, false⟩ : AuthCodeData)) ::
            List.filter (fun p => decide (¬Ts > p.2.expiry)) (storeDelete s code))
          = some ⟨T + 10, tok, un, rt, false⟩ by simp [List.lookup]]
      dsimp only
      rw [if_neg (by simp), if_pos (by simpa using h)]
      rfl

theorem authCode_expires_witness :
    List.lookup "c" (issueAuthCode [] "c" "tok" "alice" "https://my.reviewGOOSE.dev" 0)
        = some ⟨10, "tok", "alice", "https://my.reviewGOOSE.dev", false⟩
    ∧ resultStatus
        (consumeAuthCode (issueAuthCode [] "c" "tok" "alice" "https://my.reviewGOOSE.dev" 0)
          "c" 11).1 = 401
    ∧ resultStatus
        (consumeAuthCode
          (sweepAuthCodes (issueAuthCode [] "c" "tok" "alice" "https://my.reviewGOOSE.dev" 0) 20)
          "c" 11).1 = 401 :=
  authCode_expires [] "c" "tok" "alice" "https://my.reviewGOOSE.dev" 0 20 11 (by decide)

/-- C4: a regular-flow callback whose state query parameter and state cookie
are both present but unequal records a failed attempt, clears the state
cookie, responds 400, stops before any provider call, issues no auth code,
and leaves the store untouched. -/
theorem callback_state_mismatch (cfg : CallbackConfig) (r : CallbackRequest)
    (s : AuthCodeStore) (pt : Option String) (pu : Option String) (nc : String) (now : Int)
    (cookieValue : String)
    (hid : cfg.clientID ≠ "") (hsec : cfg.clientSecret ≠ "")
    (herr : r.errorParam = "")
    (hinst : ¬ (r.installationID ≠ "" ∧ r.setupAction ≠ ""))
    (hstate : r.state ≠ "")
    (hcookie : r.oauthStateCookie = some cookieValue)
    (hmismatch : cookieValue ≠ r.state) :
    handleOAuthCallbackModel cfg r s pt pu nc now
      = (.badRequest "Invalid state",
         ⟨true, true, false, false⟩, s)
    ∧ callbackStatus (handleOAuthCallbackModel cfg r s pt pu nc now).1 = 400 := by
  have hmain : handleOAuthCallbackModel cfg r s pt pu nc now
      = (.badRequest "Invalid state", ⟨true, true, false, false⟩, s) := by
    unfold handleOAuthCallbackModel
    rw [if_neg (by tauto), if_neg (by simpa using herr), if_neg hinst, if_neg (by simpa using hstate),
      hcookie]
    dsimp only
    rw [if_pos (by simp [constantTimeEq, hmismatch])]
  refine ⟨hmain, ?_⟩
  rw [hmain]
  rfl

theorem callback_state_mismatch_witness :
    handleOAuthCallbackModel ⟨"id", "secret"⟩
        ⟨"", "", "", "B", some "A", "authcode", none, none, true⟩ [] none none "nc" 0
      = (.badRequest "Invalid state", ⟨true, true, false, false⟩, [])
    ∧ callbackStatus (handleOAuthCallbackModel ⟨"id", "secret"⟩
        ⟨"", "", "", "B", some "A", "authcode", none, none, true⟩ [] none none "nc" 0).1 = 400 :=
  callback_state_mismatch ⟨"id", "secret"⟩
    ⟨"", "", "", "B", some "A", "authcode", none, none, true⟩ [] none none "nc" 0 "A"
    (by decide) (by decide) (by decide) (by decide) (by decide) rfl (by decide)

end ReviewDash
